import Mathlib

/-!
Verification of the ABS snapstore implementation
(`pkg/snapstore/abs_snapstore.go`) of etcd-backup-restore.

The Go source is shallowly embedded below.  Pure helpers of the Go standard
library that the file uses (`strings.Split`, `strings.Join`, `strings.Contains`,
`strings.TrimPrefix`, `path.Join`/`path.Clean`, `strconv.ParseBool`,
`fmt.Sprintf "%010d"`, `base64.StdEncoding.EncodeToString`) are implemented
faithfully on `List Char`/`String`.  Operating-system effects (environment
variables, file reads, directory listings, stat timestamps) and the external
JSON decoder are abstracted as components of an explicit environment record;
a concrete environment instantiates them for witnesses and counterexamples.
-/

namespace AbsStore

/-! ### Constants from the source -/

/-- Environment variable naming the credential directory (source line 35). -/
def absCredentialDirectory : String := "AZURE_APPLICATION_CREDENTIALS"

/-- Environment variable naming the JSON credential file (source line 36). -/
def absCredentialJSONFile : String := "AZURE_APPLICATION_CREDENTIALS_JSON"

/-- Environment variable holding the Azurite emulator endpoint (source line 38). -/
def AzuriteEndpoint : String := "AZURE_STORAGE_API_ENDPOINT"

/-- Environment variable enabling the Azurite emulator; its name is documented
in the doc comment of `ConstructBlobServiceURL` (source lines 124-126), the
constant itself lives in a repository file outside `src/`. -/
def EnvAzureEmulatorEnabled : String := "AZURE_EMULATOR_ENABLED"

/-- Modelled from the spec: the "public cloud DNS pattern" host
(`brtypes.AzureBlobStorageHostName`, declared outside `src/`). -/
def AzureBlobStorageHostName : String := "blob.core.windows.net"

/-- Modelled from the spec: the legacy naming-version tag (a "literal marker"
per the spec; the constant is declared outside `src/`). -/
def backupVersionV1 : String := "v1"

/-- Modelled from the spec: the current naming-version tag (a "literal marker"
per the spec; the constant is declared outside `src/`). -/
def backupVersionV2 : String := "v2"

/-! ### Go string helpers on character lists -/

/-- Go `strings.Split s "/"` on the character level: split at every `'/'`;
the empty string yields one empty field, like Go. -/
def splitSlashChars : List Char → List (List Char)
  | [] => [[]]
  | c :: cs =>
    match splitSlashChars cs with
    | [] => [[c]]
    | g :: gs => if c = '/' then [] :: g :: gs else (c :: g) :: gs

/-- Go `strings.Join groups "/"` on the character level. -/
def joinSlashChars : List (List Char) → List Char
  | [] => []
  | [g] => g
  | g :: gs => g ++ '/' :: joinSlashChars gs

/-- Scan for a substring, as `strings.Contains` does. -/
def containsSub (needle : List Char) : List Char → Bool
  | [] => needle.isEmpty
  | c :: t => needle.isPrefixOf (c :: t) || containsSub needle t

/-- Go `strings.Contains s sub`. -/
def goContains (s sub : String) : Bool := containsSub sub.data s.data

/-- Go `strings.TrimPrefix s pre`. -/
def goTrimPfx (s pre : String) : String :=
  if pre.data.isPrefixOf s.data then String.mk (s.data.drop pre.data.length) else s

/-! ### Go `path.Clean` and `path.Join`

`path.Clean` is implemented by the standard lexical algorithm: split into
components, drop empty and `"."` components, resolve `".."` against a stack
(dropping it at the root, keeping it when the path is relative and the stack
is exhausted). -/

/-- Component processing of `path.Clean`: fold the components into a reversed
stack of output components. -/
def cleanStack (rooted : Bool) : List (List Char) → List (List Char) → List (List Char)
  | stack, [] => stack
  | stack, comp :: comps =>
    if comp.isEmpty || comp = ['.'] then cleanStack rooted stack comps
    else if comp = ['.', '.'] then
      match stack with
      | [] => cleanStack rooted (if rooted then [] else [['.', '.']]) comps
      | top :: rest =>
        if top = ['.', '.'] then cleanStack rooted (comp :: top :: rest) comps
        else cleanStack rooted rest comps
    else cleanStack rooted (comp :: stack) comps

/-- Go `path.Clean` on the character level. -/
def goCleanChars (cs : List Char) : List Char :=
  match cs with
  | [] => ['.']
  | c :: _ =>
    let rooted := c = '/'
    let stack := (cleanStack rooted [] (splitSlashChars cs)).reverse
    let body := joinSlashChars stack
    if rooted then (if body.isEmpty then ['/'] else '/' :: body)
    else (if body.isEmpty then ['.'] else body)

/-- Go `path.Join` on the character level: skip leading empty elements, join the
rest with `'/'`, then `Clean`; all-empty input yields the empty path. -/
def goPathJoinChars (elems : List (List Char)) : List Char :=
  match elems.dropWhile (fun e => e.isEmpty) with
  | [] => []
  | f :: rest => goCleanChars (f ++ (rest.map (fun e => '/' :: e)).flatten)

/-- Go `path.Join`. -/
def goPathJoin (elems : List String) : String :=
  String.mk (goPathJoinChars (elems.map String.data))

/-- Go `strconv.ParseBool`: exactly these thirteen strings parse. -/
def goParseBool (s : String) : Except String Bool :=
  if s = "1" || s = "t" || s = "T" || s = "true" || s = "TRUE" || s = "True" then
    Except.ok true
  else if s = "0" || s = "f" || s = "F" || s = "false" || s = "FALSE" || s = "False" then
    Except.ok false
  else Except.error ("invalid syntax")

/-! ### Credential resolution (source lines 73-77, 152-236, 430-475)

Operating-system effects and the external JSON decoder are the fields of
`CredEnv`; everything built on top of them is a direct transcription of the
Go control flow. -/

/-- The `absCredentials` struct (source lines 73-77). -/
structure AbsCredentials where
  bucketName : String
  secretKey : String
  storageAccount : String
deriving DecidableEq

/-- The environment a credential operation runs in: environment variables,
file contents, directory listings, stat timestamps (as `Nat`, `0` being Go's
zero `time.Time`), the external JSON decoder, and the JSON-file search of
`findFileWithExtensionInDir` (declared outside `src/`; the spec describes it
as finding the `*.json` file of the directory). -/
structure CredEnv where
  lookupEnv : String → Option String
  readFile : String → Except String String
  readDir : String → Except String (List String)
  parseJSON : String → Except String AbsCredentials
  findJSONInDir : String → Except String (Option String)
  modTime : String → Except String Nat

/-- Embeds `absCredentialsFromJSON` (source lines 199-206); `json.Unmarshal` is the
environment's decoder. -/
def absCredentialsFromJSON (env : CredEnv) (jsonData : String) : Except String AbsCredentials :=
  env.parseJSON jsonData

/-- Embeds `readABSCredentialsJSON` (source lines 189-196). -/
def readABSCredentialsJSON (env : CredEnv) (filename : String) : Except String AbsCredentials :=
  match env.readFile filename with
  | Except.error e => Except.error e
  | Except.ok jsonData => absCredentialsFromJSON env jsonData

/-- Embeds `isABSConfigEmpty` (source lines 470-475), as the optional error. -/
def isABSConfigEmpty (config : AbsCredentials) : Option String :=
  if config.secretKey.length ≠ 0 ∧ config.storageAccount.length ≠ 0 then none
  else some ("azure object storage credentials: storageKey or storageAccount is missing")

/-- The file loop of `readABSCredentialFiles` (source lines 216-230). -/
def readCredFilesLoop (env : CredEnv) (dirname : String) (config : AbsCredentials) :
    List String → Except String AbsCredentials
  | [] => Except.ok config
  | file :: rest =>
    if file = "storageAccount" then
      match env.readFile (dirname ++ ("/storageAccount")) with
      | Except.error e => Except.error e
      | Except.ok data => readCredFilesLoop env dirname { config with storageAccount := data } rest
    else if file = "storageKey" then
      match env.readFile (dirname ++ ("/storageKey")) with
      | Except.error e => Except.error e
      | Except.ok data => readCredFilesLoop env dirname { config with secretKey := data } rest
    else readCredFilesLoop env dirname config rest

/-- Embeds `readABSCredentialFiles` (source lines 208-236). -/
def readABSCredentialFiles (env : CredEnv) (dirname : String) : Except String AbsCredentials :=
  match env.readDir dirname with
  | Except.error e => Except.error e
  | Except.ok files =>
    match readCredFilesLoop env dirname { bucketName := "", secretKey := "", storageAccount := "" } files with
    | Except.error e => Except.error e
    | Except.ok config =>
      match isABSConfigEmpty config with
      | some e => Except.error e
      | none => Except.ok config

/-- The first directory block of `getCredentials` (source lines 161-176):
`some r` means the block returned `r`; `none` means it fell through. -/
def getCredentialsDirJSONBlock (env : CredEnv) (pfxString : String) :
    Option (Except String (String × String)) :=
  match env.lookupEnv (pfxString ++ absCredentialDirectory) with
  | some dir =>
    match env.findJSONInDir dir with
    | Except.error e =>
      some (Except.error
        ("error while finding a JSON credential file in " ++ dir ++ " directory with error: " ++ e))
    | Except.ok (some jsonCredentialFile) =>
      match readABSCredentialsJSON env jsonCredentialFile with
      | Except.error e =>
        some (Except.error
          ("error getting credentials using " ++ jsonCredentialFile ++
            " JSON file in a directory with error: " ++ e))
      | Except.ok credentials =>
        some (Except.ok (credentials.storageAccount, credentials.secretKey))
    | Except.ok none => none
  | none => none

/-- Embeds `getCredentials` (source lines 152-187). -/
def getCredentials (env : CredEnv) (pfxString : String) : Except String (String × String) :=
  match env.lookupEnv (pfxString ++ absCredentialJSONFile) with
  | some filename =>
    match readABSCredentialsJSON env filename with
    | Except.error _ =>
      Except.error ("error getting credentials using " ++ filename ++ " file")
    | Except.ok credentials => Except.ok (credentials.storageAccount, credentials.secretKey)
  | none =>
    match getCredentialsDirJSONBlock env pfxString with
    | some r => r
    | none =>
      match env.lookupEnv (pfxString ++ absCredentialDirectory) with
      | some dir =>
        match readABSCredentialFiles env dir with
        | Except.error _ => Except.error ("error getting credentials from " ++ dir ++ " dir")
        | Except.ok credentials => Except.ok (credentials.storageAccount, credentials.secretKey)
      | none => Except.error ("unable to get credentials")

/-- Modelled from the spec: `getJSONCredentialModifiedTime` (declared outside
`src/`).  Per the call site's comment and the spec's rotation-watermark
description it returns the modification time of the JSON credential file
present in the directory, and the zero timestamp when no JSON file exists. -/
def getJSONCredentialModifiedTime (env : CredEnv) (dir : String) : Except String Nat :=
  match env.findJSONInDir dir with
  | Except.error e => Except.error e
  | Except.ok none => Except.ok 0
  | Except.ok (some f) => env.modTime f

/-- Loop of `getLatestCredentialsModifiedTime`. -/
def latestTimeLoop (env : CredEnv) (acc : Nat) : List String → Except String Nat
  | [] => Except.ok acc
  | f :: rest =>
    match env.modTime f with
    | Except.error e => Except.error e
    | Except.ok t => latestTimeLoop env (max acc t) rest

/-- Modelled from the spec: `getLatestCredentialsModifiedTime` (declared
outside `src/`) returns "the maximum modification time across" the given
credential files, failing when one cannot be statted. -/
def getLatestCredentialsModifiedTime (env : CredEnv) (credentialFiles : List String) :
    Except String Nat :=
  latestTimeLoop env 0 credentialFiles

/-- Embeds `GetABSCredentialsLastModifiedTime` (source lines 430-468). -/
def GetABSCredentialsLastModifiedTime (env : CredEnv) : Except String Nat :=
  match env.lookupEnv absCredentialDirectory with
  | some dir =>
    match getJSONCredentialModifiedTime env dir with
    | Except.error e =>
      Except.error ("failed to fetch credential modification time for ABS with error: " ++ e)
    | Except.ok modificationTimeStamp =>
      if modificationTimeStamp ≠ 0 then Except.ok modificationTimeStamp
      else
        match getLatestCredentialsModifiedTime env
            [goPathJoin [dir, ("storageKey")], goPathJoin [dir, ("storageAccount")]] with
        | Except.error e =>
          Except.error ("failed to get ABS credential timestamp from the directory " ++ dir ++
            " with error: " ++ e)
        | Except.ok absTimeStamp => Except.ok absTimeStamp
  | none =>
    match env.lookupEnv absCredentialJSONFile with
    | some filename =>
      match getLatestCredentialsModifiedTime env [filename] with
      | Except.error e =>
        Except.error ("failed to fetch file information of the ABS JSON credential file " ++
          filename ++ " with error: " ++ e)
      | Except.ok absTimeStamp => Except.ok absTimeStamp
    | none => Except.error ("no environment variable set for the ABS credential file")

/-! Source-selection abstractions used by claim C2: which credential source
decides the outcome of each operation. -/

/-- The three credential sources of the resolution protocol. -/
inductive CredSource where
  | jsonEnvFile
  | dirJSONFile
  | dirCredFiles
deriving DecidableEq

/-- The source whose probing decides `getCredentials`' outcome, following the
branch order of source lines 152-187 (`none`: no source exists). -/
def getCredentialsSource (env : CredEnv) (pfxString : String) : Option CredSource :=
  match env.lookupEnv (pfxString ++ absCredentialJSONFile) with
  | some _ => some CredSource.jsonEnvFile
  | none =>
    match env.lookupEnv (pfxString ++ absCredentialDirectory) with
    | some dir =>
      match env.findJSONInDir dir with
      | Except.error _ => some CredSource.dirJSONFile
      | Except.ok (some _) => some CredSource.dirJSONFile
      | Except.ok none => some CredSource.dirCredFiles
    | none => none

/-- The source whose probing decides `GetABSCredentialsLastModifiedTime`'s
outcome, following the branch order of source lines 430-468. -/
def lastModifiedSource (env : CredEnv) : Option CredSource :=
  match env.lookupEnv absCredentialDirectory with
  | some dir =>
    match getJSONCredentialModifiedTime env dir with
    | Except.error _ => some CredSource.dirJSONFile
    | Except.ok t => if t ≠ 0 then some CredSource.dirJSONFile else some CredSource.dirCredFiles
  | none =>
    match env.lookupEnv absCredentialJSONFile with
    | some _ => some CredSource.jsonEnvFile
    | none => none

/-! ### Endpoint construction (source lines 127-150) -/

/-- Embeds `ConstructABSURI` (source lines 127-150); `lookupEnv` abstracts
`os.LookupEnv`. -/
def ConstructABSURI (lookupEnv : String → Option String) (accountName : String) :
    Except String String :=
  let defaultURL := "https://" ++ accountName ++ "." ++ AzureBlobStorageHostName
  match lookupEnv EnvAzureEmulatorEnabled with
  | none => Except.ok defaultURL
  | some emulatorEnabled =>
    match goParseBool emulatorEnabled with
    | Except.error e =>
      Except.error ("invalid value for " ++ EnvAzureEmulatorEnabled ++ ": " ++ emulatorEnabled ++
        ", error: " ++ e)
    | Except.ok isEmulator =>
      if !isEmulator then Except.ok defaultURL
      else
        match lookupEnv AzuriteEndpoint with
        | none =>
          Except.error (AzuriteEndpoint ++ " environment variable not set while " ++
            EnvAzureEmulatorEnabled ++ " is true")
        | some endpoint => Except.ok (endpoint ++ "/" ++ accountName)

/-! ### Chunked upload (source lines 300-397)

The staging phase of `Save` runs chunk uploads on a worker pool; its
observable data are the enumerated chunks, the multiset of per-chunk results
the collector drains, and the commit call.  `fmt.Sprintf "%010d"` and
`base64.StdEncoding.EncodeToString` are implemented below. -/

/-- The decimal digit character of `d`. -/
def digitChar (d : Nat) : Char := Char.ofNat (48 + d)

/-- Fuel-driven decimal formatting; `fuel ≥ 1` suffices for `n < 10`, and
`natToDecimal` always supplies enough. -/
def natToDecimalAux : Nat → Nat → List Char → List Char
  | 0, _, acc => acc
  | fuel + 1, n, acc =>
    if n < 10 then digitChar n :: acc
    else natToDecimalAux fuel (n / 10) (digitChar (n % 10) :: acc)

/-- The decimal representation of `n`, as `fmt.Sprintf "%d"` renders it. -/
def natToDecimal (n : Nat) : List Char := natToDecimalAux (n + 1) n []

/-- Left-pad with `'0'` to width `w`. -/
def padLeftZero (w : Nat) (cs : List Char) : List Char :=
  List.replicate (w - cs.length) '0' ++ cs

/-- Go `fmt.Sprintf "%010d" n`. -/
def sprintf010d (n : Nat) : List Char := padLeftZero 10 (natToDecimal n)

/-- The RFC 4648 base64 alphabet. -/
def base64Alphabet : List Char :=
  ("ABCDEFGHIJKLMNOPQRSTUVWXYZabcdefghijklmnopqrstuvwxyz0123456789+/").data

/-- The base64 character of index `i`. -/
def base64Char (i : Nat) : Char := base64Alphabet.getD i '='

/-- Standard base64 of a byte sequence. -/
def base64EncodeBytes : List Nat → List Char
  | [] => []
  | [b1] => [base64Char (b1 / 4), base64Char (b1 % 4 * 16), '=', '=']
  | [b1, b2] => [base64Char (b1 / 4), base64Char (b1 % 4 * 16 + b2 / 16), base64Char (b2 % 16 * 4), '=']
  | b1 :: b2 :: b3 :: rest =>
    base64Char (b1 / 4) :: base64Char (b1 % 4 * 16 + b2 / 16) ::
      base64Char (b2 % 16 * 4 + b3 / 64) :: base64Char (b3 % 64) :: base64EncodeBytes rest

/-- Go `base64.StdEncoding.EncodeToString` of an ASCII string. -/
def base64EncodeASCII (cs : List Char) : List Char :=
  base64EncodeBytes (cs.map Char.toNat)

/-- The block identifier of sequence number `partNumber`:
`base64.StdEncoding.EncodeToString([]byte(fmt.Sprintf("%010d", partNumber)))`
(source lines 358 and 386). -/
def blockIDFor (partNumber : Nat) : String :=
  String.mk (base64EncodeASCII (sprintf010d partNumber))

/-- The identifier `uploadBlock` stages for a chunk:
`partNumber := offset/chunkSize + 1` (source lines 385-386). -/
def uploadBlockID (offset chunkSize : Nat) : String :=
  blockIDFor (offset / chunkSize + 1)

/-- The `chunk` struct. -/
structure Chunk where
  offset : Nat
  size : Nat
  id : Nat
  attempt : Nat
deriving DecidableEq

/-- The `chunkUploadResult` struct. -/
structure ChunkUploadResult where
  chunk : Chunk
  err : Option String
deriving DecidableEq

/-- Modelled from the spec: `collectChunkUploadError` (declared outside
`src/`) drains the result queue and "ultimately returns that first error";
with the drained results as a list, that is the first error-carrying result. -/
def collectChunkUploadError (results : List ChunkUploadResult) : Option ChunkUploadResult :=
  results.find? (fun r => r.err.isSome)

/-- Embeds `noOfChunks` (source lines 317-323): `size/chunkSize`, plus one when the
division leaves a remainder. -/
def noOfChunks (size chunkSize : Nat) : Nat :=
  size / chunkSize + (if size % chunkSize = 0 then 0 else 1)

/-- The chunk enumeration loop of `Save` (source lines 337-345):
`for offset, index := int64(0), 1; offset < size; offset += chunkSize`.
Fuel-driven; `fuel = size` suffices for any positive `chunkSize`. -/
def enumerateChunksAux : Nat → Nat → Nat → Nat → Nat → List Chunk
  | 0, _, _, _, _ => []
  | fuel + 1, size, chunkSize, offset, index =>
    if offset < size then
      { offset := offset, size := chunkSize, id := index, attempt := 0 } ::
        enumerateChunksAux fuel size chunkSize (offset + chunkSize) (index + 1)
    else []

/-- The chunks `Save` enqueues for a snapshot of `size` bytes. -/
def enumerateChunks (size chunkSize : Nat) : List Chunk :=
  enumerateChunksAux size size chunkSize 0 1

/-- The commit block list of `Save` (source lines 356-360): identifiers for
part numbers `1..noOfChunks`, regenerated in ascending sequence order. -/
def saveBlockList (n : Nat) : List String :=
  (List.range' 1 n).map blockIDFor

/-- Observable outcome of `Save` after staging: whether the single
`CommitBlockList` call happened (and with which list), and the returned
error. -/
structure SaveOutcome where
  commitCall : Option (List String)
  result : Except String Unit

/-- The tail of `Save` (source lines 348-369): collect the chunk results;
on an error return without committing; otherwise regenerate the block list
and commit it (the commit itself may fail). -/
def absSaveFinish (size chunkSize : Nat) (results : List ChunkUploadResult)
    (commitErr : Option String) : SaveOutcome :=
  match collectChunkUploadError results with
  | some snapshotErr =>
    { commitCall := none
      result := Except.error ("failed uploading chunk, id: " ++ toString snapshotErr.chunk.id ++
        ", offset: " ++ toString snapshotErr.chunk.offset) }
  | none =>
    let blockList := saveBlockList (noOfChunks size chunkSize)
    match commitErr with
    | some e =>
      { commitCall := some blockList
        result := Except.error ("failed uploading blocklist for snapshot with error: " ++ e) }
    | none => { commitCall := some blockList, result := Except.ok () }

/-! ### Listing (source lines 265-297)

The backend's pager is modelled as the sequence of pages it would serve:
each `NextPage` call yields the next element (a list of blob names, or an
error).  `ParseSnapshot` and the snapshot order live outside `src/` and are
abstracted as parameters; `sort.Sort(snapList)` is modelled by insertion
sort with the abstract order. -/

/-- The listing prefix of `List` (source lines 266-269): split the store
prefix on `"/"`, drop the last token (the backup version), rejoin, clean. -/
def listingPfx (storePfx : String) : String :=
  goPathJoin [String.mk (joinSlashChars (splitSlashChars storePfx.data).dropLast)]

/-- Per-blob processing of `List` (source lines 280-292): only names
containing a backup-version tag are candidates; candidates are trimmed,
re-joined with the prefix and parsed; parse failures are skipped. -/
def processBlobName {α : Type} (pfx : String) (parse : String → Option α)
    (snapList : List α) (blobName : String) : List α :=
  if goContains blobName backupVersionV1 || goContains blobName backupVersionV2 then
    match parse (goPathJoin [pfx, goTrimPfx blobName pfx]) with
    | none => snapList
    | some s => snapList ++ [s]
  else snapList

/-- The page loop of `List` (source lines 274-293): pages are fetched one at
a time; a page error aborts the listing. -/
def listLoop {α : Type} (pfx : String) (parse : String → Option α) :
    List (Except String (List String)) → List α → Except String (List α)
  | [], snapList => Except.ok snapList
  | page :: rest, snapList =>
    match page with
    | Except.error e => Except.error ("failed to list the blobs, error: " ++ e)
    | Except.ok blobs => listLoop pfx parse rest (blobs.foldl (processBlobName pfx parse) snapList)

/-- Embeds `sort.Sort(snapList)` with the abstract snapshot order `le`. -/
def sortSnapList {α : Type} (le : α → α → Bool) (l : List α) : List α :=
  List.insertionSort (fun a b => le a b = true) l

/-- Embeds `List` (source lines 265-297). -/
def absList {α : Type} (storePfx : String) (pages : List (Except String (List String)))
    (parse : String → Option α) (le : α → α → Bool) : Except String (List α) :=
  match listLoop (listingPfx storePfx) parse pages [] with
  | Except.error e => Except.error e
  | Except.ok snapList => Except.ok (sortSnapList le snapList)

/-- Number of `NextPage` fetches `List` performs against a page sequence:
one per page until exhaustion, stopping after a failing fetch. -/
def listFetchCount : List (Except String (List String)) → Nat
  | [] => 0
  | Except.error _ :: _ => 1
  | Except.ok _ :: rest => 1 + listFetchCount rest

/-! ### Object addressing of Fetch, Delete and Save (source lines 251-252,
355, 420-421) and a name-addressed object store to express visibility. -/

/-- The `brtypes.Snapshot` fields that addressing uses: `Prefix` (`pfx`),
`SnapDir`, `SnapName`. -/
structure Snapshot where
  pfx : String
  snapDir : String
  snapName : String
deriving DecidableEq

/-- The blob name `Fetch` downloads:
`path.Join(snap.Prefix, snap.SnapDir, snap.SnapName)` (source line 252). -/
def fetchBlobName (snap : Snapshot) : String :=
  goPathJoin [snap.pfx, snap.snapDir, snap.snapName]

/-- The blob name `Delete` removes:
`path.Join(snap.Prefix, snap.SnapDir, snap.SnapName)` (source line 421). -/
def deleteBlobName (snap : Snapshot) : String :=
  goPathJoin [snap.pfx, snap.snapDir, snap.snapName]

/-- The blob name `Save` commits:
`path.Join(adaptPrefix(&snap, a.prefix), snap.SnapDir, snap.SnapName)`
(source line 355); `adaptPrefix` (declared outside `src/`) derives the
effective prefix from the snapshot and the store's configured prefix and is
abstracted as a parameter. -/
def saveBlobName (adaptPfx : Snapshot → String → String) (storePfx : String)
    (snap : Snapshot) : String :=
  goPathJoin [adaptPfx snap storePfx, snap.snapDir, snap.snapName]

/-- The container as a map from blob name to content. -/
def updateStore (store : String → Option (List Nat)) (name : String) (data : List Nat) :
    String → Option (List Nat) :=
  fun n => if n = name then some data else store n

/-- Embeds `Delete` on the container map. -/
def deleteFromStore (store : String → Option (List Nat)) (name : String) :
    String → Option (List Nat) :=
  fun n => if n = name then none else store n

/-! ### Helper lemmas: chunk arithmetic -/

theorem map_congr_fun {α β : Type} {l : List α} {f g : α → β} (h : ∀ a ∈ l, f a = g a) :
    l.map f = l.map g := by
  induction l with
  | nil => rfl
  | cons a t ih =>
    simp only [List.map_cons]
    exact congrArg₂ _ (h a (List.mem_cons_self a t)) (ih fun x hx => h x (List.mem_cons_of_mem a hx))

theorem noOfChunks_eq_ceil (S C : Nat) (hC : 0 < C) : noOfChunks S C = (S + C - 1) / C := by
  obtain ⟨q, r, hr, hS⟩ : ∃ q r, r < C ∧ S = C * q + r :=
    ⟨S / C, S % C, Nat.mod_lt S hC, (Nat.div_add_mod S C).symm⟩
  have hdiv : S / C = q := by
    rw [hS, Nat.mul_add_div hC, Nat.div_eq_of_lt hr, Nat.add_zero]
  have hmod : S % C = r := by
    rw [hS, Nat.mul_add_mod, Nat.mod_eq_of_lt hr]
  by_cases h0 : r = 0
  · have h1 : S + C - 1 = C * q + (C - 1) := by omega
    have h2 : (S + C - 1) / C = q + (C - 1) / C := by rw [h1, Nat.mul_add_div hC]
    have h3 : (C - 1) / C = 0 := Nat.div_eq_of_lt (by omega)
    rw [noOfChunks, hdiv, hmod, if_pos h0, h2, h3]
  · have hm : C * (q + 1) = C * q + C := by ring
    have h1 : S + C - 1 = C * (q + 1) + (r - 1) := by omega
    have h2 : (S + C - 1) / C = (q + 1) + (r - 1) / C := by rw [h1, Nat.mul_add_div hC]
    have h3 : (r - 1) / C = 0 := Nat.div_eq_of_lt (by omega)
    rw [noOfChunks, hdiv, hmod, if_neg h0, h2, h3]

theorem ceil_sub_step (a C : Nat) (hC : 0 < C) (ha : 0 < a) :
    (a + C - 1) / C = (a - C + C - 1) / C + 1 := by
  by_cases h : a ≤ C
  · have h1 : a - C = 0 := by omega
    have h2 : a + C - 1 = (a - 1) + C := by omega
    rw [h1, h2, Nat.add_div_right _ hC, Nat.div_eq_of_lt (by omega),
      Nat.zero_add, Nat.div_eq_of_lt (by omega)]
  · have h2 : a + C - 1 = (a - C + C - 1) + C := by omega
    rw [h2, Nat.add_div_right _ hC]

theorem enumerateChunksAux_eq (C : Nat) (hC : 0 < C) :
    ∀ (fuel size offset index : Nat), size ≤ offset + fuel * C →
      enumerateChunksAux fuel size C offset index =
        (List.range ((size - offset + C - 1) / C)).map
          (fun k => { offset := offset + k * C, size := C, id := index + k, attempt := 0 : Chunk }) := by
  intro fuel
  induction fuel with
  | zero =>
    intro size offset index hle
    have h0 : size - offset = 0 := by omega
    rw [enumerateChunksAux, h0, Nat.zero_add, Nat.div_eq_of_lt (by omega), List.range_zero,
      List.map_nil]
  | succ fuel ih =>
    intro size offset index hle
    have hmul : (fuel + 1) * C = C + fuel * C := by ring
    rw [enumerateChunksAux]
    by_cases h : offset < size
    · rw [if_pos h]
      have hstep : (size - offset + C - 1) / C = (size - (offset + C) + C - 1) / C + 1 := by
        have hs := ceil_sub_step (size - offset) C hC (by omega)
        have harg : size - offset - C = size - (offset + C) := by omega
        rw [harg] at hs
        exact hs
      rw [ih size (offset + C) (index + 1) (by omega), hstep, List.range_succ_eq_map,
        List.map_cons, List.map_map]
      refine congrArg₂ _ ?_ ?_
      · simp [Chunk.mk.injEq]
      · refine (map_congr_fun ?_).symm
        intro k _
        simp only [Function.comp_apply, Chunk.mk.injEq, Nat.succ_eq_add_one]
        have hk : (k + 1) * C = C + k * C := by ring
        exact ⟨by omega, trivial, by omega, trivial⟩
    · rw [if_neg h]
      have h0 : size - offset = 0 := by omega
      rw [h0, Nat.zero_add, Nat.div_eq_of_lt (by omega), List.range_zero, List.map_nil]

theorem enumerateChunks_eq (S C : Nat) (hC : 0 < C) :
    enumerateChunks S C =
      (List.range (noOfChunks S C)).map
        (fun k => { offset := k * C, size := C, id := k + 1, attempt := 0 : Chunk }) := by
  have hfuel : S ≤ 0 + S * C := by
    have := Nat.mul_le_mul_left S hC
    omega
  rw [enumerateChunks, enumerateChunksAux_eq C hC S S 0 1 hfuel, Nat.sub_zero,
    ← noOfChunks_eq_ceil S C hC]
  refine map_congr_fun ?_
  intro k _
  simp only [Chunk.mk.injEq]
  exact ⟨by omega, trivial, by omega, trivial⟩

/-! ### Helper lemmas: decimal width -/

theorem natToDecimalAux_length_le :
    ∀ (fuel n k : Nat) (acc : List Char), 0 < k → n < 10 ^ k →
      (natToDecimalAux fuel n acc).length ≤ k + acc.length := by
  intro fuel
  induction fuel with
  | zero =>
    intro n k acc hk _
    simp only [natToDecimalAux]
    omega
  | succ fuel ih =>
    intro n k acc hk hn
    rw [natToDecimalAux]
    by_cases h : n < 10
    · rw [if_pos h]
      simp only [List.length_cons]
      omega
    · rw [if_neg h]
      have hk2 : 2 ≤ k := by
        by_contra hc
        have hk1 : k = 1 := by omega
        rw [hk1] at hn
        simp at hn
        omega
      have hpow : 10 ^ k = 10 ^ (k - 1) * 10 := by
        have h1 : k = (k - 1) + 1 := by omega
        calc 10 ^ k = 10 ^ ((k - 1) + 1) := by rw [← h1]
        _ = 10 ^ (k - 1) * 10 := pow_succ 10 (k - 1)
      have hlt : n / 10 < 10 ^ (k - 1) := by
        rw [Nat.div_lt_iff_lt_mul (by omega)]
        omega
      have := ih (n / 10) (k - 1) (digitChar (n % 10) :: acc) (by omega) hlt
      simp only [List.length_cons] at this
      omega

theorem sprintf010d_length (n : Nat) (hn : n < 10 ^ 10) : (sprintf010d n).length = 10 := by
  have hlen : (natToDecimal n).length ≤ 10 :=
    natToDecimalAux_length_le (n + 1) n 10 [] (by omega) hn
  rw [sprintf010d, padLeftZero, List.length_append, List.length_replicate]
  omega

/-! ### Helper lemmas: splitting and joining on slashes -/

theorem splitSlashChars_ne_nil : ∀ cs : List Char, splitSlashChars cs ≠ [] := by
  intro cs
  induction cs with
  | nil => simp [splitSlashChars]
  | cons c t ih =>
    rw [splitSlashChars]
    split
    · simp
    · split <;> simp

theorem splitSlashChars_cons (c : Char) (cs g : List Char) (gs : List (List Char))
    (h : splitSlashChars cs = g :: gs) :
    splitSlashChars (c :: cs) = if c = '/' then [] :: g :: gs else (c :: g) :: gs := by
  rw [splitSlashChars, h]

theorem splitSlashChars_dest (cs : List Char) :
    ∃ g gs, splitSlashChars cs = g :: gs := by
  cases h : splitSlashChars cs with
  | nil => exact absurd h (splitSlashChars_ne_nil cs)
  | cons g gs => exact ⟨g, gs, rfl⟩

theorem splitSlashChars_append (a b : List Char) :
    splitSlashChars (a ++ '/' :: b) = splitSlashChars a ++ splitSlashChars b := by
  induction a with
  | nil =>
    obtain ⟨g, gs, h⟩ := splitSlashChars_dest b
    rw [List.nil_append, splitSlashChars_cons '/' b g gs h, if_pos rfl, h]
    rfl
  | cons c t ih =>
    obtain ⟨g, gs, h⟩ := splitSlashChars_dest t
    have h2 : splitSlashChars (t ++ '/' :: b) = g :: (gs ++ splitSlashChars b) := by
      rw [ih, h, List.cons_append]
    rw [List.cons_append, splitSlashChars_cons c _ g (gs ++ splitSlashChars b) h2,
      splitSlashChars_cons c t g gs h]
    by_cases hc : c = '/'
    · rw [if_pos hc, if_pos hc]
      simp
    · rw [if_neg hc, if_neg hc]
      simp

theorem splitSlashChars_no_slash (b : List Char) (hb : '/' ∉ b) : splitSlashChars b = [b] := by
  induction b with
  | nil => rfl
  | cons c t ih =>
    have hc : c ≠ '/' := fun h => hb (h ▸ List.mem_cons_self c t)
    have ht : '/' ∉ t := fun h => hb (List.mem_cons_of_mem c h)
    rw [splitSlashChars_cons c t t [] (ih ht), if_neg hc]

theorem joinSlashChars_splitSlashChars :
    ∀ cs : List Char, joinSlashChars (splitSlashChars cs) = cs := by
  intro cs
  induction cs with
  | nil => rfl
  | cons c t ih =>
    obtain ⟨g, gs, h⟩ := splitSlashChars_dest t
    rw [h] at ih
    rw [splitSlashChars_cons c t g gs h]
    by_cases hc : c = '/'
    · rw [if_pos hc]
      have hj : joinSlashChars ([] :: g :: gs) = [] ++ '/' :: joinSlashChars (g :: gs) := rfl
      rw [hj, ih, List.nil_append, hc]
    · rw [if_neg hc]
      cases gs with
      | nil =>
        have hj : joinSlashChars [c :: g] = c :: g := rfl
        have hj2 : joinSlashChars [g] = g := rfl
        rw [hj2] at ih
        rw [hj, ih]
      | cons g2 gs2 =>
        have hj : joinSlashChars ((c :: g) :: g2 :: gs2) =
            (c :: g) ++ '/' :: joinSlashChars (g2 :: gs2) := rfl
        have hj2 : joinSlashChars (g :: g2 :: gs2) =
            g ++ '/' :: joinSlashChars (g2 :: gs2) := rfl
        rw [hj2] at ih
        rw [hj, List.cons_append, ih]

/-! ### Helper lemmas: the listing loop -/

theorem listLoop_map_ok {α : Type} (pfx : String) (parse : String → Option α) :
    ∀ (pages : List (List String)) (acc : List α),
      listLoop pfx parse (pages.map Except.ok) acc =
        Except.ok (pages.foldl (fun a blobs => blobs.foldl (processBlobName pfx parse) a) acc) := by
  intro pages
  induction pages with
  | nil => intro acc; rfl
  | cons page rest ih =>
    intro acc
    rw [List.map_cons, listLoop, List.foldl_cons]
    exact ih (page.foldl (processBlobName pfx parse) acc)

theorem listFetchCount_map_ok :
    ∀ pages : List (List String), listFetchCount (pages.map Except.ok) = pages.length := by
  intro pages
  induction pages with
  | nil => rfl
  | cons page rest ih =>
    rw [List.map_cons, listFetchCount, ih, List.length_cons]
    omega

theorem sortSnapList_sorted {α : Type} (le : α → α → Bool)
    (hTotal : ∀ a b, le a b = true ∨ le b a = true)
    (hTrans : ∀ a b c, le a b = true → le b c = true → le a c = true) (l : List α) :
    List.Sorted (fun a b => le a b = true) (sortSnapList le l) := by
  haveI : IsTotal α (fun a b => le a b = true) := ⟨hTotal⟩
  haveI : IsTrans α (fun a b => le a b = true) := ⟨hTrans⟩
  exact List.sorted_insertionSort (fun a b => le a b = true) l

/-! ### Helper lemma: a strictly ascending sequence-number range -/

theorem pairwise_lt_range'_one (s n : Nat) : List.Pairwise (· < ·) (List.range' s n) := by
  induction n generalizing s with
  | zero => simp
  | succ n ih =>
    rw [List.range'_succ]
    refine List.Pairwise.cons ?_ (ih (s + 1))
    intro b hb
    have := List.mem_range'_1.mp hb
    omega

/-! ### Helper lemmas: strings and credential environments -/

theorem str_empty_append (s : String) : "" ++ s = s := by
  cases s
  rfl

theorem ne_empty_of_length_ne_zero (s : String) (h : s.length ≠ 0) : s ≠ "" := by
  intro he
  rw [he] at h
  exact h rfl

/-- A concrete environment in which both credential environment variables are
set: the explicit JSON file and a directory that contains a JSON credential
file (with distinct modification times 11 and 55). -/
def c2Env : CredEnv where
  lookupEnv := fun s =>
    if s = absCredentialJSONFile then some ("creds.json")
    else if s = absCredentialDirectory then some ("creddir") else none
  readFile := fun s =>
    if s = ("creds.json") then Except.ok ("jsonbody") else Except.error ("no such file")
  readDir := fun _ => Except.error ("unused")
  parseJSON := fun s =>
    if s = ("jsonbody") then
      Except.ok { bucketName := "", secretKey := "key1", storageAccount := "acct1" }
    else Except.error ("parse error")
  findJSONInDir := fun d =>
    if d = ("creddir") then Except.ok (some ("creddir/credentials.json")) else Except.ok none
  modTime := fun s =>
    if s = ("creddir/credentials.json") then Except.ok 55
    else if s = ("creds.json") then Except.ok 11 else Except.error ("no stat")

/-! ### Claim theorems -/

/-- C2 counterexample: with both environment variables set, `getCredentials`
resolves from the JSON-file environment variable (returning its contents),
while `GetABSCredentialsLastModifiedTime` answers from the directory's JSON
file (timestamp 55), not from the resolved JSON file (timestamp 11): the two
operations select different authoritative sources for the same environment. -/
theorem c2_counterexample :
    getCredentialsSource c2Env ("") = some CredSource.jsonEnvFile ∧
    lastModifiedSource c2Env = some CredSource.dirJSONFile ∧
    getCredentialsSource c2Env ("") ≠ lastModifiedSource c2Env ∧
    getCredentials c2Env ("") = Except.ok (("acct1"), ("key1")) ∧
    GetABSCredentialsLastModifiedTime c2Env = Except.ok 55 ∧
    getLatestCredentialsModifiedTime c2Env [("creds.json")] = Except.ok 11 := by
  refine ⟨rfl, rfl, ?_, rfl, rfl, rfl⟩
  decide

/-- C2 as amended: `GetABSCredentialsLastModifiedTime` probes the credential
directory (JSON file in the directory, then the discrete credential files)
before the JSON-file environment variable — the reverse of `getCredentials`'
precedence between the two variables — so whenever both variables are set the
two operations select different authoritative sources. -/
theorem c2_amended (env : CredEnv) (f d : String)
    (hf : env.lookupEnv absCredentialJSONFile = some f)
    (hd : env.lookupEnv absCredentialDirectory = some d) :
    getCredentialsSource env ("") = some CredSource.jsonEnvFile ∧
    (lastModifiedSource env = some CredSource.dirJSONFile ∨
      lastModifiedSource env = some CredSource.dirCredFiles) ∧
    getCredentialsSource env ("") ≠ lastModifiedSource env := by
  have h1 : getCredentialsSource env ("") = some CredSource.jsonEnvFile := by
    rw [getCredentialsSource, str_empty_append, hf]
  have h2 : lastModifiedSource env = some CredSource.dirJSONFile ∨
      lastModifiedSource env = some CredSource.dirCredFiles := by
    simp only [lastModifiedSource, hd]
    cases hj : getJSONCredentialModifiedTime env d with
    | error e => simp [hj]
    | ok t =>
      simp only [hj]
      by_cases ht : t ≠ 0
      · exact Or.inl (by rw [if_pos ht])
      · exact Or.inr (by rw [if_neg ht])
  refine ⟨h1, h2, ?_⟩
  rw [h1]
  rcases h2 with h | h <;> rw [h] <;> simp

/-- Witness for C2's amended statement at the concrete environment. -/
theorem c2_witness :
    getCredentialsSource c2Env ("") = some CredSource.jsonEnvFile ∧
    (lastModifiedSource c2Env = some CredSource.dirJSONFile ∨
      lastModifiedSource c2Env = some CredSource.dirCredFiles) ∧
    getCredentialsSource c2Env ("") ≠ lastModifiedSource c2Env :=
  c2_amended c2Env ("creds.json") ("creddir") rfl rfl

/-- C6: during directory-based resolution, a discovered JSON credential file
that fails to read or parse makes `getCredentials` fail (no fallthrough to
the discrete files), while the absence of a JSON file in the directory falls
through to the discrete per-field file source. -/
theorem c6_dir_json_parse_fatal (env : CredEnv) (pfxString dir jsonFile e : String)
    (h1 : env.lookupEnv (pfxString ++ absCredentialJSONFile) = none)
    (hd : env.lookupEnv (pfxString ++ absCredentialDirectory) = some dir) :
    (env.findJSONInDir dir = Except.ok (some jsonFile) →
      readABSCredentialsJSON env jsonFile = Except.error e →
      getCredentials env pfxString =
        Except.error ("error getting credentials using " ++ jsonFile ++
          " JSON file in a directory with error: " ++ e)) ∧
    (env.findJSONInDir dir = Except.ok none →
      getCredentials env pfxString =
        (match readABSCredentialFiles env dir with
         | Except.error _ => Except.error ("error getting credentials from " ++ dir ++ " dir")
         | Except.ok credentials =>
           Except.ok (credentials.storageAccount, credentials.secretKey))) := by
  constructor
  · intro hfj hparse
    simp only [getCredentials, h1, getCredentialsDirJSONBlock, hd, hfj, hparse]
  · intro hfj
    simp only [getCredentials, h1, getCredentialsDirJSONBlock, hd, hfj]

/-- Witness for C6: a directory whose JSON file fails to parse, and one
without a JSON file. -/
theorem c6_witness :
    getCredentials
        { c2Env with
          lookupEnv := fun s => if s = absCredentialDirectory then some ("creddir") else none
          readFile := fun _ => Except.ok ("garbage") }
        "" =
      Except.error ("error getting credentials using " ++ ("creddir/credentials.json") ++
        " JSON file in a directory with error: " ++ ("parse error")) ∧
    getCredentials
        { c2Env with
          lookupEnv := fun s => if s = absCredentialDirectory then some ("nodir") else none
          readDir := fun _ => Except.ok ["storageAccount", "storageKey"]
          readFile := fun _ => Except.ok ("value") }
        "" =
      (match readABSCredentialFiles
          { c2Env with
            lookupEnv := fun s => if s = absCredentialDirectory then some ("nodir") else none
            readDir := fun _ => Except.ok ["storageAccount", "storageKey"]
            readFile := fun _ => Except.ok ("value") }
          ("nodir") with
       | Except.error _ => Except.error ("error getting credentials from " ++ ("nodir") ++ " dir")
       | Except.ok credentials =>
         Except.ok (credentials.storageAccount, credentials.secretKey)) :=
  ⟨(c6_dir_json_parse_fatal _ ("") ("creddir") ("creddir/credentials.json") ("parse error")
      rfl rfl).1 rfl rfl,
   (c6_dir_json_parse_fatal _ ("") ("nodir") ("unused") ("unused") rfl rfl).2 rfl⟩

/-- C7 counterexample: with the emulator flag set to a value that parses to
`true` but the endpoint variable unset, `ConstructABSURI` returns an error —
not the emulator base URL joined with the account identifier. -/
theorem c7_counterexample :
    goParseBool ("true") = Except.ok true ∧
    ConstructABSURI (fun s => if s = EnvAzureEmulatorEnabled then some ("true") else none)
        ("acct") =
      Except.error (AzuriteEndpoint ++ " environment variable not set while " ++
        EnvAzureEmulatorEnabled ++ " is true") ∧
    (ConstructABSURI (fun s => if s = EnvAzureEmulatorEnabled then some ("true") else none)
        ("acct")).isOk = false := by
  exact ⟨rfl, rfl, rfl⟩

/-- C7 as amended: the production URL is returned when the emulator flag is
absent or parses to false; the emulator URL `endpoint/account` is returned
when the flag parses to true and the endpoint variable is set; when the flag
parses to true but the endpoint variable is unset, or when the flag value is
not a parsable boolean, an error is returned. -/
theorem c7_amended (lookupEnv : String → Option String) (accountName v endpoint e : String) :
    (lookupEnv EnvAzureEmulatorEnabled = none →
      ConstructABSURI lookupEnv accountName =
        Except.ok ("https://" ++ accountName ++ "." ++ AzureBlobStorageHostName)) ∧
    (lookupEnv EnvAzureEmulatorEnabled = some v → goParseBool v = Except.ok false →
      ConstructABSURI lookupEnv accountName =
        Except.ok ("https://" ++ accountName ++ "." ++ AzureBlobStorageHostName)) ∧
    (lookupEnv EnvAzureEmulatorEnabled = some v → goParseBool v = Except.ok true →
      lookupEnv AzuriteEndpoint = some endpoint →
      ConstructABSURI lookupEnv accountName = Except.ok (endpoint ++ "/" ++ accountName)) ∧
    (lookupEnv EnvAzureEmulatorEnabled = some v → goParseBool v = Except.ok true →
      lookupEnv AzuriteEndpoint = none →
      ConstructABSURI lookupEnv accountName =
        Except.error (AzuriteEndpoint ++ " environment variable not set while " ++
          EnvAzureEmulatorEnabled ++ " is true")) ∧
    (lookupEnv EnvAzureEmulatorEnabled = some v → goParseBool v = Except.error e →
      ConstructABSURI lookupEnv accountName =
        Except.error ("invalid value for " ++ EnvAzureEmulatorEnabled ++ ": " ++ v ++
          ", error: " ++ e)) := by
  refine ⟨?_, ?_, ?_, ?_, ?_⟩
  · intro h
    simp only [ConstructABSURI, h]
  · intro h hp
    simp only [ConstructABSURI, h, hp, Bool.not_false, if_true]
  · intro h hp hep
    simp only [ConstructABSURI, h, hp, hep, Bool.not_true, Bool.false_eq_true, if_false]
  · intro h hp hep
    simp only [ConstructABSURI, h, hp, hep, Bool.not_true, Bool.false_eq_true, if_false]
  · intro h hp
    simp only [ConstructABSURI, h, hp]

/-- Witness for C7's amended statement: all five scenarios at concrete
environments. -/
theorem c7_witness :
    ConstructABSURI (fun _ => none) ("acc") =
      Except.ok ("https://" ++ ("acc") ++ "." ++ AzureBlobStorageHostName) ∧
    ConstructABSURI (fun s => if s = EnvAzureEmulatorEnabled then some ("false") else none)
        ("acc") =
      Except.ok ("https://" ++ ("acc") ++ "." ++ AzureBlobStorageHostName) ∧
    ConstructABSURI
        (fun s => if s = EnvAzureEmulatorEnabled then some ("true")
          else if s = AzuriteEndpoint then some ("http://emu") else none) ("acc") =
      Except.ok (("http://emu") ++ "/" ++ ("acc")) ∧
    ConstructABSURI (fun s => if s = EnvAzureEmulatorEnabled then some ("true") else none)
        ("acc") =
      Except.error (AzuriteEndpoint ++ " environment variable not set while " ++
        EnvAzureEmulatorEnabled ++ " is true") ∧
    ConstructABSURI (fun s => if s = EnvAzureEmulatorEnabled then some ("definitely") else none)
        ("acc") =
      Except.error ("invalid value for " ++ EnvAzureEmulatorEnabled ++ ": " ++ ("definitely") ++
        ", error: " ++ ("invalid syntax")) :=
  ⟨(c7_amended (fun _ => none) ("acc") "" "" "").1 rfl,
   (c7_amended _ ("acc") ("false") "" "").2.1 rfl rfl,
   (c7_amended _ ("acc") ("true") ("http://emu") "").2.2.1 rfl rfl rfl,
   (c7_amended _ ("acc") ("true") "" "").2.2.2.1 rfl rfl rfl,
   (c7_amended _ ("acc") ("definitely") "" ("invalid syntax")).2.2.2.2 rfl rfl⟩

/-- C1: whenever at least one chunk upload result carries an error, `Save`
returns an error and never invokes `CommitBlockList`, so no partial object is
committed as the final snapshot. -/
theorem c1_save_error_skips_commit (size chunkSize : Nat) (results : List ChunkUploadResult)
    (commitErr : Option String) (r : ChunkUploadResult) (hr : r ∈ results)
    (he : r.err.isSome = true) :
    (absSaveFinish size chunkSize results commitErr).commitCall = none ∧
      (absSaveFinish size chunkSize results commitErr).result ≠ Except.ok () := by
  obtain ⟨x, hx⟩ : ∃ x, collectChunkUploadError results = some x := by
    cases h : collectChunkUploadError results with
    | none =>
      have hnone := List.find?_eq_none.mp h r hr
      rw [he] at hnone
      exact absurd rfl hnone
    | some x => exact ⟨x, rfl⟩
  simp only [absSaveFinish, hx]
  exact ⟨trivial, by simp⟩

/-- Witness for C1 at a concrete failing single-chunk result. -/
theorem c1_witness :
    (absSaveFinish 10 5
        [{ chunk := { offset := 0, size := 5, id := 1, attempt := 0 }, err := some ("boom") }]
        none).commitCall = none ∧
      (absSaveFinish 10 5
        [{ chunk := { offset := 0, size := 5, id := 1, attempt := 0 }, err := some ("boom") }]
        none).result ≠ Except.ok () :=
  c1_save_error_skips_commit 10 5
    [{ chunk := { offset := 0, size := 5, id := 1, attempt := 0 }, err := some ("boom") }]
    none
    { chunk := { offset := 0, size := 5, id := 1, attempt := 0 }, err := some ("boom") }
    (List.mem_singleton.mpr rfl) rfl

/-- C4: for snapshot size `S` and chunk size `C > 0`, `Save` enumerates
exactly `ceil(S/C)` chunks, the `k`-th at offset `k*C` with sequence number
`k+1`; for `S = 0` it enumerates no chunks and performs the single commit
with the empty block identifier list. -/
theorem c4_chunking_arithmetic (S C : Nat) (hC : 0 < C) :
    noOfChunks S C = (S + C - 1) / C ∧
    enumerateChunks S C =
      (List.range (noOfChunks S C)).map
        (fun k => { offset := k * C, size := C, id := k + 1, attempt := 0 : Chunk }) ∧
    enumerateChunks 0 C = [] ∧
    absSaveFinish 0 C [] none = { commitCall := some [], result := Except.ok () } := by
  refine ⟨noOfChunks_eq_ceil S C hC, enumerateChunks_eq S C hC, ?_, ?_⟩
  · rw [enumerateChunks_eq 0 C hC]
    simp [noOfChunks]
  · simp [absSaveFinish, collectChunkUploadError, noOfChunks, saveBlockList]

/-- Witness for C4 at `S = 5`, `C = 2`. -/
theorem c4_witness :
    noOfChunks 5 2 = (5 + 2 - 1) / 2 ∧
    enumerateChunks 5 2 =
      (List.range (noOfChunks 5 2)).map
        (fun k => { offset := k * 2, size := 2, id := k + 1, attempt := 0 : Chunk }) ∧
    enumerateChunks 0 2 = [] ∧
    absSaveFinish 0 2 [] none = { commitCall := some [], result := Except.ok () } :=
  c4_chunking_arithmetic 5 2 (by decide)

/-- C5: on an error-free upload the committed block list is the identifiers
of sequence numbers `1..N` in strictly ascending order (independent of the
order chunk results arrived in), each identifier being the base64 of the
10-digit zero-padded decimal; the identifier staged for the chunk at offset
`o` is the identifier of `o / chunkSize + 1`, so staged and committed
identifiers agree one-to-one. -/
theorem c5_commit_blocklist_ascending (S C : Nat) (hC : 0 < C)
    (results : List ChunkUploadResult) (hok : collectChunkUploadError results = none)
    (commitErr : Option String) (n : Nat) (hn : n < 10 ^ 10) :
    (absSaveFinish S C results commitErr).commitCall =
      some ((List.range' 1 (noOfChunks S C)).map blockIDFor) ∧
    (enumerateChunks S C).map (fun c => uploadBlockID c.offset c.size) =
      (List.range' 1 (noOfChunks S C)).map blockIDFor ∧
    List.Pairwise (· < ·) (List.range' 1 (noOfChunks S C)) ∧
    blockIDFor n = String.mk (base64EncodeASCII (sprintf010d n)) ∧
    (sprintf010d n).length = 10 := by
  refine ⟨?_, ?_, pairwise_lt_range'_one 1 (noOfChunks S C), rfl, sprintf010d_length n hn⟩
  · simp only [absSaveFinish, hok, saveBlockList]
    cases commitErr <;> rfl
  · rw [enumerateChunks_eq S C hC, List.map_map, List.range'_eq_map_range, List.map_map]
    refine map_congr_fun ?_
    intro k _
    simp only [Function.comp_apply, uploadBlockID]
    have hdiv : k * C / C = k := Nat.mul_div_cancel k hC
    rw [hdiv, Nat.add_comm 1 k]

/-- Witness for C5 at `S = 5`, `C = 2`, the empty (error-free) result list
and sequence number 3. -/
theorem c5_witness :
    (absSaveFinish 5 2 [] none).commitCall =
      some ((List.range' 1 (noOfChunks 5 2)).map blockIDFor) ∧
    (enumerateChunks 5 2).map (fun c => uploadBlockID c.offset c.size) =
      (List.range' 1 (noOfChunks 5 2)).map blockIDFor ∧
    List.Pairwise (· < ·) (List.range' 1 (noOfChunks 5 2)) ∧
    blockIDFor 3 = String.mk (base64EncodeASCII (sprintf010d 3)) ∧
    (sprintf010d 3).length = 10 :=
  c5_commit_blocklist_ascending 5 2 (by decide) [] rfl none 3 (by decide)

/-- In a successful run of the credential-file loop, a non-empty final
`storageAccount` was either already in the accumulator or read from the
`storageAccount` file named in the listing. -/
theorem readCredFilesLoop_storageAccount (env : CredEnv) (d : String) :
    ∀ (names : List String) (config config' : AbsCredentials),
      readCredFilesLoop env d config names = Except.ok config' →
      (config'.storageAccount = config.storageAccount ∨
        ("storageAccount" ∈ names ∧
          env.readFile (d ++ ("/storageAccount")) = Except.ok config'.storageAccount)) := by
  intro names
  induction names with
  | nil =>
    intro config config' h
    rw [readCredFilesLoop] at h
    cases h
    exact Or.inl rfl
  | cons name rest ih =>
    intro config config' h
    rw [readCredFilesLoop] at h
    by_cases hsa : name = "storageAccount"
    · rw [if_pos hsa] at h
      cases hr : env.readFile (d ++ ("/storageAccount")) with
      | error e => rw [hr] at h; cases h
      | ok data =>
        rw [hr] at h
        rcases ih _ _ h with hleft | ⟨hmem, hfile⟩
        · have hsa' : config'.storageAccount = data := hleft
          refine Or.inr ⟨by rw [← hsa]; exact List.mem_cons_self name rest, ?_⟩
          rw [hsa']
        · rw [hr] at hfile
          exact Or.inr ⟨List.mem_cons_of_mem name hmem, hfile⟩
    · rw [if_neg hsa] at h
      by_cases hsk : name = "storageKey"
      · rw [if_pos hsk] at h
        cases hr : env.readFile (d ++ ("/storageKey")) with
        | error e => rw [hr] at h; cases h
        | ok data =>
          rw [hr] at h
          rcases ih _ _ h with hleft | ⟨hmem, hfile⟩
          · exact Or.inl hleft
          · exact Or.inr ⟨List.mem_cons_of_mem name hmem, hfile⟩
      · rw [if_neg hsk] at h
        rcases ih _ _ h with hleft | ⟨hmem, hfile⟩
        · exact Or.inl hleft
        · exact Or.inr ⟨List.mem_cons_of_mem name hmem, hfile⟩

/-- Counterpart of `readCredFilesLoop_storageAccount` for the `storageKey`
file and the `secretKey` field. -/
theorem readCredFilesLoop_storageKey (env : CredEnv) (d : String) :
    ∀ (names : List String) (config config' : AbsCredentials),
      readCredFilesLoop env d config names = Except.ok config' →
      (config'.secretKey = config.secretKey ∨
        ("storageKey" ∈ names ∧
          env.readFile (d ++ ("/storageKey")) = Except.ok config'.secretKey)) := by
  intro names
  induction names with
  | nil =>
    intro config config' h
    rw [readCredFilesLoop] at h
    cases h
    exact Or.inl rfl
  | cons name rest ih =>
    intro config config' h
    rw [readCredFilesLoop] at h
    by_cases hsa : name = "storageAccount"
    · rw [if_pos hsa] at h
      cases hr : env.readFile (d ++ ("/storageAccount")) with
      | error e => rw [hr] at h; cases h
      | ok data =>
        rw [hr] at h
        rcases ih _ _ h with hleft | ⟨hmem, hfile⟩
        · exact Or.inl hleft
        · exact Or.inr ⟨List.mem_cons_of_mem name hmem, hfile⟩
    · rw [if_neg hsa] at h
      by_cases hsk : name = "storageKey"
      · rw [if_pos hsk] at h
        cases hr : env.readFile (d ++ ("/storageKey")) with
        | error e => rw [hr] at h; cases h
        | ok data =>
          rw [hr] at h
          rcases ih _ _ h with hleft | ⟨hmem, hfile⟩
          · have hsk' : config'.secretKey = data := hleft
            refine Or.inr ⟨by rw [← hsk]; exact List.mem_cons_self name rest, ?_⟩
            rw [hsk']
          · rw [hr] at hfile
            exact Or.inr ⟨List.mem_cons_of_mem name hmem, hfile⟩
      · rw [if_neg hsk] at h
        rcases ih _ _ h with hleft | ⟨hmem, hfile⟩
        · exact Or.inl hleft
        · exact Or.inr ⟨List.mem_cons_of_mem name hmem, hfile⟩

/-- C3: the explicit JSON-file environment variable dominates the credential
directory (the result only depends on the JSON file; the directory-related
environment components are never consulted); when resolution reaches the
discrete per-field files it succeeds only if both the `storageAccount` and
`storageKey` files are listed, readable and non-empty; with no source set,
resolution fails. -/
theorem c3_credential_precedence (env : CredEnv) (pfxString dir filename sa sk : String)
    (names : List String) (rd : String → Except String (List String))
    (fj : String → Except String (Option String)) (mt : String → Except String Nat) :
    (env.lookupEnv (pfxString ++ absCredentialJSONFile) = some filename →
      (getCredentials { env with readDir := rd, findJSONInDir := fj, modTime := mt } pfxString =
          getCredentials env pfxString ∧
        (∀ c, readABSCredentialsJSON env filename = Except.ok c →
          getCredentials env pfxString = Except.ok (c.storageAccount, c.secretKey)))) ∧
    (env.lookupEnv (pfxString ++ absCredentialJSONFile) = none →
      env.lookupEnv (pfxString ++ absCredentialDirectory) = some dir →
      env.findJSONInDir dir = Except.ok none →
      env.readDir dir = Except.ok names →
      getCredentials env pfxString = Except.ok (sa, sk) →
      (("storageAccount" ∈ names ∧
          env.readFile (dir ++ ("/storageAccount")) = Except.ok sa ∧ sa ≠ "") ∧
        ("storageKey" ∈ names ∧
          env.readFile (dir ++ ("/storageKey")) = Except.ok sk ∧ sk ≠ ""))) ∧
    (env.lookupEnv (pfxString ++ absCredentialJSONFile) = none →
      env.lookupEnv (pfxString ++ absCredentialDirectory) = none →
      getCredentials env pfxString = Except.error ("unable to get credentials")) := by
  refine ⟨?_, ?_, ?_⟩
  · intro hf
    constructor
    · simp only [getCredentials, readABSCredentialsJSON, absCredentialsFromJSON, hf]
    · intro c hc
      simp only [getCredentials, hf, hc]
  · intro h1 hd hfj hnames hok
    rw [getCredentials] at hok
    simp only [h1, getCredentialsDirJSONBlock, hd, hfj, readABSCredentialFiles, hnames] at hok
    cases hloop : readCredFilesLoop env dir
        { bucketName := "", secretKey := "", storageAccount := "" } names with
    | error e => rw [hloop] at hok; cases hok
    | ok config =>
      simp only [hloop, isABSConfigEmpty] at hok
      by_cases hempty : config.secretKey.length ≠ 0 ∧ config.storageAccount.length ≠ 0
      · rw [if_pos hempty] at hok
        have hpair : config.storageAccount = sa ∧ config.secretKey = sk := by
          simpa only [Except.ok.injEq, Prod.mk.injEq] using hok
        rcases readCredFilesLoop_storageAccount env dir names _ _ hloop with hsa0 | ⟨hmems, hfs⟩
        · have hzero : config.storageAccount = "" := hsa0
          rw [hzero] at hempty
          exact absurd rfl hempty.2
        · rcases readCredFilesLoop_storageKey env dir names _ _ hloop with hsk0 | ⟨hmemk, hfk⟩
          · have hzero : config.secretKey = "" := hsk0
            rw [hzero] at hempty
            exact absurd rfl hempty.1
          · refine ⟨⟨hmems, ?_, ?_⟩, ⟨hmemk, ?_, ?_⟩⟩
            · rw [← hpair.1]; exact hfs
            · rw [← hpair.1]; exact ne_empty_of_length_ne_zero _ hempty.2
            · rw [← hpair.2]; exact hfk
            · rw [← hpair.2]; exact ne_empty_of_length_ne_zero _ hempty.1
      · rw [if_neg hempty] at hok
        cases hok
  · intro h1 hd
    simp only [getCredentials, h1, getCredentialsDirJSONBlock, hd]

/-- A concrete environment with only the credential directory set, holding
the two discrete credential files. -/
def c3DiscreteEnv : CredEnv where
  lookupEnv := fun s => if s = absCredentialDirectory then some ("cdir") else none
  readFile := fun s =>
    if s = ("cdir/storageAccount") then Except.ok ("A")
    else if s = ("cdir/storageKey") then Except.ok ("K") else Except.error ("no file")
  readDir := fun _ => Except.ok ["storageAccount", "storageKey"]
  parseJSON := fun _ => Except.error ("unused")
  findJSONInDir := fun _ => Except.ok none
  modTime := fun _ => Except.error ("unused")

/-- A concrete environment with no credential source configured. -/
def c3EmptyEnv : CredEnv where
  lookupEnv := fun _ => none
  readFile := fun _ => Except.error ("no file")
  readDir := fun _ => Except.error ("no dir")
  parseJSON := fun _ => Except.error ("no json")
  findJSONInDir := fun _ => Except.ok none
  modTime := fun _ => Except.error ("no stat")

/-- Witness for C3: the three scenarios at concrete environments. -/
theorem c3_witness :
    (getCredentials
          { c2Env with
            readDir := fun _ => Except.error ("changed")
            findJSONInDir := fun _ => Except.ok none
            modTime := fun _ => Except.error ("changed") } "" =
        getCredentials c2Env ("") ∧
      (∀ c, readABSCredentialsJSON c2Env ("creds.json") = Except.ok c →
        getCredentials c2Env ("") = Except.ok (c.storageAccount, c.secretKey))) ∧
    ((("storageAccount" ∈ ["storageAccount", "storageKey"] ∧
        c3DiscreteEnv.readFile (("cdir") ++ ("/storageAccount")) = Except.ok ("A") ∧
          ("A" : String) ≠ "") ∧
      ("storageKey" ∈ ["storageAccount", "storageKey"] ∧
        c3DiscreteEnv.readFile (("cdir") ++ ("/storageKey")) = Except.ok ("K") ∧
          ("K" : String) ≠ ""))) ∧
    getCredentials c3EmptyEnv ("") = Except.error ("unable to get credentials") :=
  ⟨(c3_credential_precedence c2Env ("") "" ("creds.json") "" "" []
      (fun _ => Except.error ("changed")) (fun _ => Except.ok none)
      (fun _ => Except.error ("changed"))).1 rfl,
   (c3_credential_precedence c3DiscreteEnv ("") ("cdir") "" ("A") ("K")
      ["storageAccount", "storageKey"] c3DiscreteEnv.readDir c3DiscreteEnv.findJSONInDir
      c3DiscreteEnv.modTime).2.1 rfl rfl rfl rfl rfl,
   (c3_credential_precedence c3EmptyEnv ("") "" "" "" "" [] c3EmptyEnv.readDir
      c3EmptyEnv.findJSONInDir c3EmptyEnv.modTime).2.2 rfl rfl⟩

/-- C8: `List` derives its listing prefix by dropping the trailing
naming-version segment of the store prefix; when every page fetch succeeds it
returns `ok` for every parse function — names that fail to parse are skipped,
never escalated to an error — and the returned snapshots are the parsed
candidates sorted by the (total, transitive) snapshot order. -/
theorem c8_list_skips_and_sorts {α : Type} (t v storePfx : String)
    (hpfx : storePfx.data = t.data ++ '/' :: v.data) (hv : ('/') ∉ v.data)
    (pages : List (List String)) (parse : String → Option α) (le : α → α → Bool)
    (hTotal : ∀ a b, le a b = true ∨ le b a = true)
    (hTrans : ∀ a b c, le a b = true → le b c = true → le a c = true) :
    listingPfx storePfx = goPathJoin [t] ∧
    absList storePfx (pages.map Except.ok) parse le =
      Except.ok (sortSnapList le
        (pages.foldl
          (fun acc blobs => blobs.foldl (processBlobName (listingPfx storePfx) parse) acc) [])) ∧
    List.Sorted (fun a b => le a b = true)
      (sortSnapList le
        (pages.foldl
          (fun acc blobs => blobs.foldl (processBlobName (listingPfx storePfx) parse) acc) [])) := by
  refine ⟨?_, ?_, sortSnapList_sorted le hTotal hTrans _⟩
  · rw [listingPfx, hpfx, splitSlashChars_append, splitSlashChars_no_slash v.data hv,
      List.dropLast_concat, joinSlashChars_splitSlashChars]
  · rw [absList, listLoop_map_ok]

/-- Witness for C8 at the store prefix `"p/v2"` over one page. -/
theorem c8_witness :
    listingPfx ("p/v2") = goPathJoin [("p")] ∧
    absList ("p/v2") ([[("v2/a")]].map Except.ok) (fun s => some s)
        (fun (_ _ : String) => true) =
      Except.ok (sortSnapList (fun (_ _ : String) => true)
        ([[("v2/a")]].foldl
          (fun acc blobs =>
            blobs.foldl (processBlobName (listingPfx ("p/v2")) (fun s => some s)) acc) [])) ∧
    List.Sorted (fun (a b : String) => (fun (_ _ : String) => true) a b = true)
      (sortSnapList (fun (_ _ : String) => true)
        ([[("v2/a")]].foldl
          (fun acc blobs =>
            blobs.foldl (processBlobName (listingPfx ("p/v2")) (fun s => some s)) acc) [])) :=
  c8_list_skips_and_sorts ("p") ("v2") ("p/v2") rfl (by decide) [[("v2/a")]]
    (fun s => some s) (fun _ _ => true) (fun _ _ => Or.inl rfl) (fun _ _ _ _ _ => rfl)

/-- C9 counterexample: a backend serving the same valid blob name on two
pages makes `List` return that snapshot twice — the result is the
concatenation of the pages' items, with no deduplication by name. -/
theorem c9_counterexample :
    absList ("p/v2") [Except.ok [("v2/a")], Except.ok [("v2/a")]] (fun s => some s)
        (fun (_ _ : String) => true) =
      Except.ok [("p/v2/a"), ("p/v2/a")] ∧
    listFetchCount [Except.ok [("v2/a")], Except.ok [("v2/a")]] = 2 ∧
    ¬ ([("p/v2/a"), ("p/v2/a")] : List String).Nodup :=
  ⟨rfl, rfl, by decide⟩

/-- C9 as amended: for a backend exposing `k` successful pages, `List`
performs exactly `k` sequential page fetches and returns the concatenation
of all pages' parsed items (sorted); it does not deduplicate by name. -/
theorem c9_sequential_pagination {α : Type} (storePfx : String) (pages : List (List String))
    (parse : String → Option α) (le : α → α → Bool) :
    listFetchCount (pages.map Except.ok) = pages.length ∧
    absList storePfx (pages.map Except.ok) parse le =
      Except.ok (sortSnapList le
        (pages.foldl
          (fun acc blobs => blobs.foldl (processBlobName (listingPfx storePfx) parse) acc) [])) :=
  ⟨listFetchCount_map_ok pages, by rw [absList, listLoop_map_ok]⟩

/-- C10 counterexample: for the snapshot with `Prefix = "v2/"` and a store
whose adapted prefix is `"v2"`, the `Prefix` field differs from the adapted
prefix, yet `path.Join` cleans both to the same blob name, and Fetch reads
exactly the object Save wrote. -/
theorem c10_counterexample :
    ({ pfx := "v2/", snapDir := "d", snapName := "s" : Snapshot }).pfx ≠
      (fun (_ : Snapshot) (sp : String) => sp)
        { pfx := "v2/", snapDir := "d", snapName := "s" } ("v2") ∧
    fetchBlobName { pfx := "v2/", snapDir := "d", snapName := "s" } =
      saveBlobName (fun _ sp => sp) ("v2") { pfx := "v2/", snapDir := "d", snapName := "s" } ∧
    updateStore (fun _ => none)
        (saveBlobName (fun _ sp => sp) ("v2") { pfx := "v2/", snapDir := "d", snapName := "s" })
        [1] (fetchBlobName { pfx := "v2/", snapDir := "d", snapName := "s" }) = some [1] ∧
    deleteBlobName { pfx := "v2/", snapDir := "d", snapName := "s" } =
      fetchBlobName { pfx := "v2/", snapDir := "d", snapName := "s" } :=
  ⟨by decide, rfl, rfl, rfl⟩

/-- C10 as amended: Fetch and Delete address
`path.Join(snap.Prefix, snap.SnapDir, snap.SnapName)` while Save addresses
`path.Join(adaptPrefix(snap, storePrefix), snap.SnapDir, snap.SnapName)`;
whenever those two joined (cleaned) paths differ — in particular for prefix
differences that survive `path.Join`'s cleaning — the object Save writes is
not the object Fetch reads, and Delete removes a different object, leaving
Save's object in place. -/
theorem c10_amended (adaptPfx : Snapshot → String → String) (storePfx : String)
    (snap : Snapshot) (store : String → Option (List Nat)) (data : List Nat)
    (hne : fetchBlobName snap ≠ saveBlobName adaptPfx storePfx snap) :
    fetchBlobName snap = goPathJoin [snap.pfx, snap.snapDir, snap.snapName] ∧
    deleteBlobName snap = fetchBlobName snap ∧
    saveBlobName adaptPfx storePfx snap =
      goPathJoin [adaptPfx snap storePfx, snap.snapDir, snap.snapName] ∧
    updateStore store (saveBlobName adaptPfx storePfx snap) data (fetchBlobName snap) =
      store (fetchBlobName snap) ∧
    deleteFromStore store (fetchBlobName snap) (saveBlobName adaptPfx storePfx snap) =
      store (saveBlobName adaptPfx storePfx snap) := by
  refine ⟨rfl, rfl, rfl, ?_, ?_⟩
  · simp only [updateStore]
    rw [if_neg hne]
  · simp only [deleteFromStore]
    rw [if_neg (fun h => hne (Eq.symm h))]

/-- Witness for C10's amended statement at a snapshot whose joined path
differs from Save's. -/
theorem c10_witness :
    fetchBlobName { pfx := "other", snapDir := "d", snapName := "s" } =
      goPathJoin [("other"), ("d"), ("s")] ∧
    deleteBlobName { pfx := "other", snapDir := "d", snapName := "s" } =
      fetchBlobName { pfx := "other", snapDir := "d", snapName := "s" } ∧
    saveBlobName (fun _ sp => sp) ("v2") { pfx := "other", snapDir := "d", snapName := "s" } =
      goPathJoin [("v2"), ("d"), ("s")] ∧
    updateStore (fun _ => none)
        (saveBlobName (fun _ sp => sp) ("v2") { pfx := "other", snapDir := "d", snapName := "s" })
        [2] (fetchBlobName { pfx := "other", snapDir := "d", snapName := "s" }) =
      (fun _ => none : String → Option (List Nat))
        (fetchBlobName { pfx := "other", snapDir := "d", snapName := "s" }) ∧
    deleteFromStore (fun _ => none)
        (fetchBlobName { pfx := "other", snapDir := "d", snapName := "s" })
        (saveBlobName (fun _ sp => sp) ("v2") { pfx := "other", snapDir := "d", snapName := "s" }) =
      (fun _ => none : String → Option (List Nat))
        (saveBlobName (fun _ sp => sp) ("v2")
          { pfx := "other", snapDir := "d", snapName := "s" }) :=
  c10_amended (fun _ sp => sp) ("v2") { pfx := "other", snapDir := "d", snapName := "s" }
    (fun _ => none) [2] (by decide)

end AbsStore
